import Mathlib

/-!
Shallow embedding of `src/main/wordCloud_tree.py` (a small Flask service that
fetches news articles, derives Hangul word frequencies, renders a word-cloud
image and serves it, plus a deduplicated news list endpoint).

External effects (the HTTP request made by `requests.get`, the render/file-write
performed by the `wordcloud` library, the presence of a previously written
image file) are modelled as explicit parameters describing the outcome of the
single corresponding action; the repository's own control flow is translated
faithfully from the source.
-/

namespace WordCloudTree

/-- Character class `[가-힣]` of the regex on line 73: the Hangul-syllable
range U+AC00 .. U+D7A3. -/
def isHangul (c : Char) : Bool :=
  decide (0xAC00 ≤ c.toNat) && decide (c.toNat ≤ 0xD7A3)

/-- Model of the word characters (`\w`) relevant to the regex `\b[가-힣]{2,}\b`:
ASCII alphanumerics, underscore, and the Hangul-syllable block.  Python's
Unicode `\w` covers further letters; that only affects how runs are segmented
around such exotic characters, never the shape of a produced token (a token is
always an all-Hangul run, see `wordRuns`). -/
def isWordChar (c : Char) : Bool :=
  c.isAlphanum || c == '_' || isHangul c

/-- Maximal runs of word characters of a character list.  The accumulator holds
the current run reversed. -/
def wordRuns : List Char → List Char → List (List Char)
  | [], acc => if acc.isEmpty then [] else [acc.reverse]
  | c :: cs, acc =>
    if isWordChar c then wordRuns cs (c :: acc)
    else if acc.isEmpty then wordRuns cs acc
    else acc.reverse :: wordRuns cs []

/-- Embedding of `re.findall(r'\b[가-힣]{2,}\b', text)` (line 73).  A match of
that pattern is exactly a maximal word-character run that consists entirely of
Hangul-syllable characters and has length at least 2: the bounding `\b`
requires the neighbours of the match to be non-word characters, and the greedy
`{2,}` then consumes the whole run. -/
def findall_hangul (text : String) : List String :=
  ((wordRuns text.data []).filter
      (fun r => decide (2 ≤ r.length) && r.all isHangul)).map
    (fun r => String.mk r)

/-- The stop-word set literal of line 74, in source order. -/
def stop_words : List String :=
  ["것", "수", "있다", "하다", "의", "를", "이", "에", "가", "은", "들", "에서"]

/-- Model of `collections.Counter` built from a list: an association list in
first-insertion order; adding a word increments its entry or appends `(w, 1)`. -/
def counterAdd : List (String × Nat) → String → List (String × Nat)
  | [], w => [(w, 1)]
  | (k, v) :: rest, w =>
    if k = w then (k, v + 1) :: rest else (k, v) :: counterAdd rest w

/-- `Counter(ws)` as an association list (insertion order, counts ≥ 1). -/
def counter (ws : List String) : List (String × Nat) :=
  ws.foldl counterAdd []

/-- Embedding of `preprocess_text` (lines 72-76): tokenize, drop stop words,
count occurrences. -/
def preprocess_text (text : String) : List (String × Nat) :=
  counter ((findall_hangul text).filter (fun w => !(stop_words.contains w)))

/-- An article record of the provider response (`items` entries), §3 of the
spec: title (may contain markup), description, link. -/
structure Article where
  title : String
  description : String
  link : String
  deriving DecidableEq

/-- Outcome of the single `requests.get` call of `fetch_naver_news` (line 62):
either the parsed response with its `items` array, or a raised
`requests.exceptions.RequestException` (transport failure, or the HTTP-level
failure raised by `raise_for_status`). -/
inductive RequestOutcome where
  | success (items : List Article)
  | requestException (msg : String)
  deriving DecidableEq

/-- Observable result of a `fetch_naver_news` call: the returned list, the
number of HTTP request attempts made, and whether an exception propagated to
the caller. -/
structure FetchResult where
  items : List Article
  attempts : Nat
  raised : Bool
  deriving DecidableEq

/-- Embedding of `fetch_naver_news` (lines 48-69): one `requests.get` attempt;
on success return `data["items"]`, on a `RequestException` log and return `[]`.
No loop, so exactly one attempt either way, and the `except` clause means no
exception reaches the caller. -/
def fetch_naver_news : RequestOutcome → FetchResult
  | .success items => ⟨items, 1, false⟩
  | .requestException _ => ⟨[], 1, false⟩

/-- Embedding of Python `str.replace(pat, repl)` on character lists: replace
non-overlapping occurrences left to right.  Fuel-structured so the kernel can
evaluate it; `fuel = length of the subject` suffices for the nonempty patterns
used here, since each step consumes at least one character. -/
def replaceFuel (pat repl : List Char) : Nat → List Char → List Char
  | 0, l => l
  | _ + 1, [] => []
  | fuel + 1, c :: rest =>
    if pat.isPrefixOf (c :: rest) then
      repl ++ replaceFuel pat repl fuel ((c :: rest).drop pat.length)
    else
      c :: replaceFuel pat repl fuel rest

/-- `s.replace(pat, repl)` for strings. -/
def str_replace (s pat repl : String) : String :=
  String.mk (replaceFuel pat.data repl.data s.data.length s.data)

/-- Model of Python `html.unescape` restricted to the semicolon-terminated
core named character references (`&amp;` `&lt;` `&gt;` `&quot;`); this covers
the entities exercised by the titles at issue.  Fuel-structured like
`replaceFuel`. -/
def unescapeFuel : Nat → List Char → List Char
  | 0, l => l
  | _ + 1, [] => []
  | fuel + 1, c :: rest =>
    if c = '&' then
      if List.isPrefixOf ['a', 'm', 'p', ';'] rest then
        '&' :: unescapeFuel fuel (rest.drop 4)
      else if List.isPrefixOf ['l', 't', ';'] rest then
        '<' :: unescapeFuel fuel (rest.drop 3)
      else if List.isPrefixOf ['g', 't', ';'] rest then
        '>' :: unescapeFuel fuel (rest.drop 3)
      else if List.isPrefixOf ['q', 'u', 'o', 't', ';'] rest then
        '"' :: unescapeFuel fuel (rest.drop 5)
      else c :: unescapeFuel fuel rest
    else c :: unescapeFuel fuel rest

/-- `html.unescape` for strings. -/
def html_unescape (s : String) : String :=
  String.mk (unescapeFuel s.data.length s.data)

/-- Title normalization of line 134:
`html.unescape(title.replace("<b>", "").replace("</b>", ""))` — strip the
literal bold tags first, then entity-unescape. -/
def norm_title (s : String) : String :=
  html_unescape (str_replace (str_replace s "<b>" "") "</b>" "")

/-- One `{title, link}` object of the news-list response (lines 137-140). -/
structure NewsEntry where
  title : String
  link : String
  deriving DecidableEq

/-- Embedding of the dedup loop of lines 131-140: walk the articles keeping a
set `seen` of normalized titles already emitted; emit an entry (normalized
title, original link) only for first occurrences, preserving input order. -/
def build_news_list : List Article → List String → List NewsEntry
  | [], _ => []
  | a :: rest, seen =>
    let t := norm_title a.title
    if seen.contains t then build_news_list rest seen
    else ⟨t, a.link⟩ :: build_news_list rest (t :: seen)

/-- Body of a `/api/news` response: either the error JSON object or the JSON
array of entries. -/
inductive NewsBody where
  | errorBody (msg : String)
  | entries (l : List NewsEntry)
  deriving DecidableEq

/-- An HTTP response of the `/api/news` handler. -/
structure NewsResponse where
  status : Nat
  body : NewsBody
  deriving DecidableEq

/-- Embedding of `news_endpoint` (lines 122-142): 500 with the localized error
object when the fetched list is empty, else 200 with the deduplicated list. -/
def news_endpoint (articles : List Article) : NewsResponse :=
  if articles.isEmpty then ⟨500, .errorBody "기사를 가져올 수 없습니다."⟩
  else ⟨200, .entries (build_news_list articles [])⟩

/-- Outcome of the mask-load / render / file-write sequence inside the `try`
of `generate_wordcloud` (lines 81-88): success, or some exception raised at
any of those steps. -/
inductive RenderOutcome where
  | ok
  | error (msg : String)
  deriving DecidableEq

/-- Observable result of a `generate_wordcloud` call: whether an exception
propagated to the caller, whether an error was logged, and whether the output
file was (re)written. -/
structure GenerateResult where
  raised : Bool
  errorLogged : Bool
  fileWritten : Bool
  deriving DecidableEq

/-- Embedding of `generate_wordcloud` (lines 79-91): the whole body is inside
`try`, and `except Exception` logs and falls through, so no exception ever
propagates; on failure nothing is written. -/
def generate_wordcloud (word_freq : List (String × Nat)) :
    RenderOutcome → GenerateResult
  | .ok => ⟨false, false, true⟩
  | .error _ => ⟨false, true, false⟩

/-- Body of a `/api/wordcloud` response: the error JSON object, or the file
streamed by `send_file`. -/
inductive WordcloudBody where
  | errorBody (msg : String)
  | imageFile (path : String)
  deriving DecidableEq

/-- An observable run of the `/api/wordcloud` handler: HTTP status and body,
plus effect counters for fetch attempts and render attempts. -/
structure WordcloudResponse where
  status : Nat
  body : WordcloudBody
  fetchCalls : Nat
  renderCalls : Nat
  deriving DecidableEq

/-- Embedding of `wordcloud_endpoint` (lines 106-119).  Parameters model the
environment of one request: the outcome of the single upstream HTTP call, the
outcome of the render/write step, and whether a previously written
`wordcloud.png` exists on disk.  The handler unconditionally calls
`fetch_naver_news`; with no descriptions it returns the 500 error object;
otherwise it preprocesses, calls `generate_wordcloud` (which never raises) and
then `send_file("wordcloud.png")`, which streams the file when it exists
(freshly written or stale) and otherwise raises, which Flask surfaces as a
500. -/
def wordcloud_endpoint (fetchOutcome : RequestOutcome)
    (render : RenderOutcome) (priorImageExists : Bool) : WordcloudResponse :=
  let fetched := fetch_naver_news fetchOutcome
  let descriptions := fetched.items.map (fun a => a.description)
  if descriptions.isEmpty then
    ⟨500, .errorBody "기사를 가져올 수 없습니다.", fetched.attempts, 0⟩
  else
    let combined := String.intercalate " " descriptions
    let word_freq := preprocess_text combined
    let gen := generate_wordcloud word_freq render
    if gen.fileWritten || priorImageExists then
      ⟨200, .imageFile "wordcloud.png", fetched.attempts, 1⟩
    else
      ⟨500, .errorBody "send_file: wordcloud.png missing", fetched.attempts, 1⟩

/-- Specification-level first-seen deduplication of a list of strings: keep
the first occurrence of each element, in first-occurrence order. -/
def firstDedup : List String → List String
  | [] => []
  | t :: rest => t :: firstDedup (rest.filter (fun u => !(u == t)))
  termination_by l => l.length
  decreasing_by
    simp only [List.length_cons]
    exact Nat.lt_succ_of_le (List.length_filter_le _ _)

/-- The title trace of the dedup loop: `dedupSeen ts seen` is the sequence of
titles emitted by the loop when the already-seen set is `seen`. -/
def dedupSeen : List String → List String → List String
  | [], _ => []
  | t :: rest, seen =>
    if seen.contains t then dedupSeen rest seen
    else t :: dedupSeen rest (t :: seen)

/-- Example article whose title carries bold markup and an entity. -/
def exArticle1 : Article :=
  ⟨"<b>분리수거</b> &amp; 재활용", "분리수거 안내", "https://news.example/a"⟩

/-- Example article with the same normalized title as `exArticle1` but a
different link. -/
def exArticle2 : Article :=
  ⟨"분리수거 & 재활용", "재활용 소식", "https://news.example/b"⟩

/-! ### Helper lemmas about the Counter model -/

theorem counterAdd_mem {m : List (String × Nat)} {w k : String} {v : Nat}
    (h : (k, v) ∈ counterAdd m w) : (∃ v2, (k, v2) ∈ m) ∨ k = w := by
  induction m with
  | nil =>
    simp only [counterAdd, List.mem_singleton, Prod.mk.injEq] at h
    exact Or.inr h.1
  | cons p rest ih =>
    obtain ⟨a, b⟩ := p
    by_cases haw : a = w
    · subst haw
      simp only [counterAdd, if_pos rfl] at h
      rcases List.mem_cons.mp h with hh | ht
      · exact Or.inr (Prod.mk.injEq .. ▸ hh).1
      · exact Or.inl ⟨v, List.mem_cons_of_mem _ ht⟩
    · simp only [counterAdd, if_neg haw] at h
      rcases List.mem_cons.mp h with hh | ht
      · exact Or.inl ⟨b, (Prod.mk.injEq .. ▸ hh).1 ▸ List.mem_cons_self _ _⟩
      · rcases ih ht with ⟨v2, h2⟩ | hk
        · exact Or.inl ⟨v2, List.mem_cons_of_mem _ h2⟩
        · exact Or.inr hk

theorem counter_fold_mem :
    ∀ (ws : List String) (m : List (String × Nat)) (k : String) (v : Nat),
      (k, v) ∈ ws.foldl counterAdd m → (∃ v2, (k, v2) ∈ m) ∨ k ∈ ws := by
  intro ws
  induction ws with
  | nil => intro m k v h; exact Or.inl ⟨v, h⟩
  | cons w ws ih =>
    intro m k v h
    simp only [List.foldl_cons] at h
    rcases ih _ _ _ h with ⟨v2, h2⟩ | hks
    · rcases counterAdd_mem h2 with h3 | rfl
      · exact Or.inl h3
      · exact Or.inr (List.mem_cons_self _ _)
    · exact Or.inr (List.mem_cons_of_mem _ hks)

theorem counterAdd_pos {m : List (String × Nat)} {w : String}
    (hm : ∀ p ∈ m, 1 ≤ p.2) : ∀ p ∈ counterAdd m w, 1 ≤ p.2 := by
  induction m with
  | nil =>
    intro p hp
    simp only [counterAdd, List.mem_singleton] at hp
    subst hp; exact Nat.le_refl 1
  | cons q rest ih =>
    obtain ⟨a, b⟩ := q
    intro p hp
    by_cases haw : a = w
    · subst haw
      simp only [counterAdd, if_pos rfl] at hp
      rcases List.mem_cons.mp hp with hh | ht
      · subst hh; exact Nat.le_add_left 1 b
      · exact hm p (List.mem_cons_of_mem _ ht)
    · simp only [counterAdd, if_neg haw] at hp
      rcases List.mem_cons.mp hp with hh | ht
      · subst hh; exact hm _ (List.mem_cons_self _ _)
      · exact ih (fun q hq => hm q (List.mem_cons_of_mem _ hq)) p ht

theorem counter_fold_pos :
    ∀ (ws : List String) (m : List (String × Nat)), (∀ p ∈ m, 1 ≤ p.2) →
      ∀ p ∈ ws.foldl counterAdd m, 1 ≤ p.2 := by
  intro ws
  induction ws with
  | nil => intro m hm p hp; exact hm p hp
  | cons w ws ih =>
    intro m hm p hp
    simp only [List.foldl_cons] at hp
    exact ih _ (counterAdd_pos hm) p hp

theorem mem_findall_hangul {text w : String} (h : w ∈ findall_hangul text) :
    2 ≤ w.length ∧ w.data.all isHangul = true := by
  simp only [findall_hangul, List.mem_map, List.mem_filter] at h
  obtain ⟨r, ⟨_, hr⟩, rfl⟩ := h
  rw [Bool.and_eq_true] at hr
  exact ⟨of_decide_eq_true hr.1, hr.2⟩

/-! ### Claim theorems: preprocessing (C2, C3, C10) -/

/-- C2: for every input string, every key of the frequency map returned by
`preprocess_text` is a token produced by the Hangul regex — at least 2
characters long, entirely within the Hangul range — and is not a member of the
stop-word set. -/
theorem preprocess_text_keys_spec (text k : String) (v : Nat)
    (h : (k, v) ∈ preprocess_text text) :
    k ∈ findall_hangul text ∧ 2 ≤ k.length ∧ k.data.all isHangul = true ∧
      k ∉ stop_words := by
  simp only [preprocess_text, counter] at h
  rcases counter_fold_mem _ [] k v h with ⟨v2, h2⟩ | hk
  · cases h2
  · have hk2 := List.mem_filter.mp hk
    have hstop : k ∉ stop_words := by
      intro hmem
      have : stop_words.contains k = true := List.elem_iff.mpr hmem
      rw [this] at hk2
      exact Bool.false_ne_true hk2.2
    obtain ⟨h1, h2⟩ := mem_findall_hangul hk2.1
    exact ⟨hk2.1, h1, h2, hstop⟩

/-- C2 witness: a concrete run of `preprocess_text` whose key satisfies the
property. -/
theorem preprocess_text_keys_spec_witness :
    "분리수거" ∈ findall_hangul "분리수거 좋다 분리수거" ∧
      2 ≤ "분리수거".length ∧ "분리수거".data.all isHangul = true ∧
      "분리수거" ∉ stop_words :=
  preprocess_text_keys_spec "분리수거 좋다 분리수거" "분리수거" 2 (by decide)

/-- C3 counterexample: the stop-word set literal of line 74 does not have 11
elements. -/
theorem stop_words_card_ne_eleven : ¬ stop_words.toFinset.card = 11 := by
  decide

/-- C3 (amended): the fixed stop-word set used by `preprocess_text` contains
exactly 12 distinct elements, not 11. -/
theorem stop_words_card_twelve : stop_words.toFinset.card = 12 := by
  decide

/-- C10: every count in the frequency map returned by `preprocess_text` is at
least 1; no key is mapped to a zero count. -/
theorem preprocess_text_counts_positive (text k : String) (v : Nat)
    (h : (k, v) ∈ preprocess_text text) : 1 ≤ v := by
  simp only [preprocess_text, counter] at h
  exact counter_fold_pos _ [] (fun p hp => by cases hp) (k, v) h

/-- C10 witness: a concrete frequency-map entry with its count bounded by the
theorem. -/
theorem preprocess_text_counts_positive_witness : 1 ≤ 2 :=
  preprocess_text_counts_positive "재활용 재활용 의 것" "재활용" 2 (by decide)

/-! ### Claim theorems: fetching and the news endpoint (C4, C5, C7) -/

/-- C4: on every transport-level or HTTP-level failure (a
`RequestException`), `fetch_naver_news` returns the empty list; it never
raises to its caller, and it makes exactly one (hence at most one) request
attempt per call. -/
theorem fetch_naver_news_failure_spec (outcome : RequestOutcome) :
    (fetch_naver_news outcome).attempts = 1 ∧
    (fetch_naver_news outcome).raised = false ∧
    (∀ msg, outcome = RequestOutcome.requestException msg →
      (fetch_naver_news outcome).items = []) := by
  cases outcome with
  | success items => exact ⟨rfl, rfl, fun msg h => by cases h⟩
  | requestException msg => exact ⟨rfl, rfl, fun _ _ => rfl⟩

/-- C4 witness: a concrete failed call returns the empty list with one
attempt and no exception. -/
theorem fetch_naver_news_failure_spec_witness :
    (fetch_naver_news (RequestOutcome.requestException "connection timeout")).items
        = [] ∧
    (fetch_naver_news (RequestOutcome.requestException "connection timeout")).attempts
        = 1 ∧
    (fetch_naver_news (RequestOutcome.requestException "connection timeout")).raised
        = false := by
  have h :=
    fetch_naver_news_failure_spec (RequestOutcome.requestException "connection timeout")
  exact ⟨h.2.2 _ rfl, h.1, h.2.1⟩

/-- C5: with zero fetched articles `news_endpoint` responds 500 with exactly
the localized error object; with at least one article it responds 200 with
the JSON array of `{title, link}` entries. -/
theorem news_endpoint_status_spec (articles : List Article) :
    (articles = [] →
      news_endpoint articles =
        ⟨500, NewsBody.errorBody "기사를 가져올 수 없습니다."⟩) ∧
    (articles ≠ [] →
      news_endpoint articles =
        ⟨200, NewsBody.entries (build_news_list articles [])⟩) := by
  constructor
  · rintro rfl; rfl
  · intro h
    cases articles with
    | nil => exact absurd rfl h
    | cons a rest => rfl

/-- C5 witness: both branches at concrete inputs. -/
theorem news_endpoint_status_spec_witness :
    news_endpoint [] = ⟨500, NewsBody.errorBody "기사를 가져올 수 없습니다."⟩ ∧
    news_endpoint [exArticle1] =
      ⟨200, NewsBody.entries (build_news_list [exArticle1] [])⟩ :=
  ⟨(news_endpoint_status_spec []).1 rfl,
    (news_endpoint_status_spec [exArticle1]).2 (by decide)⟩

/-- C7: title normalization strips the literal `<b>` and `</b>` tags first and
then HTML-entity-unescapes, so the bold-marked title with `&amp;` normalizes
to the plain title with `&`. -/
theorem norm_title_example :
    norm_title "<b>분리수거</b> &amp; 재활용" = "분리수거 & 재활용" := by
  decide

/-! ### Claim theorems: the wordcloud endpoint (C1, C8, C9) -/

/-- C1 counterexample: `wordcloud_endpoint` has no refresh gate.  The claim
requires that whenever the current time is strictly within 24 hours of the
last successful refresh, the handler performs no fetch; but the handler's
behaviour does not depend on any time at all, and already at
`now = lastUpdated = 0` (well inside the window) a request performs a fetch
attempt. -/
theorem wordcloud_no_refresh_gate_cex :
    ¬ (∀ (lastUpdated now : Nat), now < lastUpdated + 24 * 60 * 60 →
        ∀ (f : RequestOutcome) (r : RenderOutcome) (p : Bool),
          (wordcloud_endpoint f r p).fetchCalls = 0) := by
  intro h
  have h0 := h 0 0 (by omega) (RequestOutcome.success []) RenderOutcome.ok true
  exact absurd h0 (by decide)

/-- C1 (amended): the handler has no refresh gating.  Every request to
`GET /api/wordcloud` performs exactly one fetch attempt, regardless of when
(or whether) a previous refresh succeeded; it performs exactly one render
attempt when the fetch yields at least one article and none when the fetch
yields no articles (in which case it returns an error instead of streaming
the image). -/
theorem wordcloud_endpoint_always_one_fetch
    (f : RequestOutcome) (r : RenderOutcome) (p : Bool) :
    (wordcloud_endpoint f r p).fetchCalls = 1 ∧
    (wordcloud_endpoint f r p).renderCalls =
      (if (fetch_naver_news f).items.isEmpty then 0 else 1) := by
  cases f with
  | success items =>
    cases items with
    | nil => exact ⟨rfl, rfl⟩
    | cons a rest =>
      cases r with
      | ok => exact ⟨rfl, rfl⟩
      | error msg => cases p <;> exact ⟨rfl, rfl⟩
  | requestException msg => exact ⟨rfl, rfl⟩

/-- C8 counterexample: with zero fetched articles and a cached image present,
the wordcloud handler surfaces an error response directly — HTTP 500 with the
localized error object — and does not keep serving the cached image. -/
theorem wordcloud_zero_articles_cex :
    (wordcloud_endpoint (RequestOutcome.success []) RenderOutcome.ok true).status
        = 500 ∧
    (wordcloud_endpoint (RequestOutcome.success []) RenderOutcome.ok true).body
        = WordcloudBody.errorBody "기사를 가져올 수 없습니다." ∧
    ¬ (wordcloud_endpoint (RequestOutcome.success []) RenderOutcome.ok true).body
        = WordcloudBody.imageFile "wordcloud.png" :=
  ⟨rfl, rfl, by decide⟩

/-- C8 (amended): when the provider returns zero articles the wordcloud path
does surface an error response directly: it skips rendering and returns HTTP
500 with the error object `{"error": "기사를 가져올 수 없습니다."}`, without serving the
prior cached image even when one is present. -/
theorem wordcloud_zero_articles_spec
    (f : RequestOutcome) (r : RenderOutcome) (p : Bool)
    (h : (fetch_naver_news f).items = []) :
    wordcloud_endpoint f r p =
      ⟨500, WordcloudBody.errorBody "기사를 가져올 수 없습니다.", 1, 0⟩ := by
  cases f with
  | success items =>
    cases items with
    | nil => rfl
    | cons a rest => exact absurd h (by simp [fetch_naver_news])
  | requestException msg => rfl

/-- C8 witness: the amended behaviour at a concrete empty fetch with a cached
image present. -/
theorem wordcloud_zero_articles_spec_witness :
    wordcloud_endpoint (RequestOutcome.success []) RenderOutcome.ok true =
      ⟨500, WordcloudBody.errorBody "기사를 가져올 수 없습니다.", 1, 0⟩ :=
  wordcloud_zero_articles_spec (RequestOutcome.success []) RenderOutcome.ok true rfl

/-- C9: every exception during image generation is swallowed by
`generate_wordcloud` — it is logged, nothing propagates to the caller, no
file is written — and the handler then continues: when the fetch yielded
articles and a stale image file exists, the request is still answered 200
with the image file. -/
theorem generate_wordcloud_swallows_errors
    (word_freq : List (String × Nat)) (msg : String) (f : RequestOutcome) :
    (generate_wordcloud word_freq (RenderOutcome.error msg)).raised = false ∧
    (generate_wordcloud word_freq (RenderOutcome.error msg)).errorLogged = true ∧
    (generate_wordcloud word_freq (RenderOutcome.error msg)).fileWritten = false ∧
    ((fetch_naver_news f).items ≠ [] →
      (wordcloud_endpoint f (RenderOutcome.error msg) true).status = 200 ∧
      (wordcloud_endpoint f (RenderOutcome.error msg) true).body =
        WordcloudBody.imageFile "wordcloud.png") := by
  refine ⟨rfl, rfl, rfl, ?_⟩
  intro h
  cases f with
  | success items =>
    cases items with
    | nil => exact absurd rfl h
    | cons a rest => exact ⟨rfl, rfl⟩
  | requestException msg2 => exact absurd rfl h

/-- C9 witness: a concrete render failure is swallowed and the stale image is
still served. -/
theorem generate_wordcloud_swallows_errors_witness :
    (generate_wordcloud [] (RenderOutcome.error "font missing")).raised = false ∧
    (wordcloud_endpoint (RequestOutcome.success [exArticle1])
        (RenderOutcome.error "font missing") true).status = 200 := by
  have h := generate_wordcloud_swallows_errors [] "font missing"
    (RequestOutcome.success [exArticle1])
  exact ⟨h.1, (h.2.2.2 (by decide)).1⟩

/-! ### Helper lemmas about the dedup loop (for C6) -/

theorem contains_cons_eq (x a : String) (l : List String) :
    (a :: l).contains x = ((x == a) || l.contains x) := rfl

theorem build_news_list_cons (b : Article) (rest : List Article)
    (seen : List String) :
    build_news_list (b :: rest) seen =
      if seen.contains (norm_title b.title) then build_news_list rest seen
      else ⟨norm_title b.title, b.link⟩ ::
        build_news_list rest (norm_title b.title :: seen) := rfl

theorem dedupSeen_cons (t : String) (rest seen : List String) :
    dedupSeen (t :: rest) seen =
      if seen.contains t then dedupSeen rest seen
      else t :: dedupSeen rest (t :: seen) := rfl

theorem firstDedup_cons (t : String) (rest : List String) :
    firstDedup (t :: rest) =
      t :: firstDedup (rest.filter (fun u => !(u == t))) := by
  rw [firstDedup]

theorem mem_firstDedup (l : List String) : ∀ x, x ∈ firstDedup l → x ∈ l := by
  induction l using firstDedup.induct with
  | case1 =>
    intro x hx
    rw [firstDedup] at hx
    cases hx
  | case2 t rest ih =>
    intro x hx
    rw [firstDedup_cons] at hx
    rcases List.mem_cons.mp hx with rfl | hx2
    · exact List.mem_cons_self _ _
    · exact List.mem_cons_of_mem _ ((List.mem_filter.mp (ih x hx2)).1)

theorem firstDedup_nodup (l : List String) : (firstDedup l).Nodup := by
  induction l using firstDedup.induct with
  | case1 => rw [firstDedup]; exact List.nodup_nil
  | case2 t rest ih =>
    rw [firstDedup_cons]
    refine List.nodup_cons.mpr ⟨?_, ih⟩
    intro hmem
    have ht := (List.mem_filter.mp (mem_firstDedup _ _ hmem)).2
    simp at ht

theorem filter_contains_cons (t : String) (seen rest : List String) :
    rest.filter (fun u => !((t :: seen).contains u)) =
      (rest.filter (fun u => !(seen.contains u))).filter (fun u => !(u == t)) := by
  rw [List.filter_filter]
  apply List.filter_congr
  intro u _
  rw [contains_cons_eq]
  cases h1 : (u == t) <;> cases h2 : seen.contains u <;> rfl

theorem dedupSeen_eq_firstDedup :
    ∀ (l seen : List String),
      dedupSeen l seen = firstDedup (l.filter (fun u => !(seen.contains u))) := by
  intro l
  induction l with
  | nil =>
    intro seen
    rw [List.filter_nil, firstDedup]
    rfl
  | cons t rest ih =>
    intro seen
    cases hc : seen.contains t with
    | false =>
      rw [List.filter_cons, dedupSeen_cons, hc, if_neg Bool.false_ne_true,
        Bool.not_false, if_pos rfl, firstDedup_cons, ih (t :: seen),
        filter_contains_cons]
    | true =>
      rw [List.filter_cons, dedupSeen_cons, hc, Bool.not_true, if_pos rfl,
        if_neg Bool.false_ne_true]
      exact ih seen

theorem build_news_list_titles :
    ∀ (arts : List Article) (seen : List String),
      (build_news_list arts seen).map (fun e => e.title) =
        dedupSeen (arts.map (fun a => norm_title a.title)) seen := by
  intro arts
  induction arts with
  | nil => intro seen; rfl
  | cons b rest ih =>
    intro seen
    rw [build_news_list_cons, List.map_cons, dedupSeen_cons]
    cases hcb : seen.contains (norm_title b.title) with
    | false =>
      rw [if_neg Bool.false_ne_true, if_neg Bool.false_ne_true,
        List.map_cons, ih]
    | true =>
      rw [if_pos rfl, if_pos rfl, ih]

theorem build_news_list_complete :
    ∀ (arts : List Article) (seen : List String) (a : Article),
      a ∈ arts → seen.contains (norm_title a.title) = false →
      ∃ e, e ∈ build_news_list arts seen ∧ e.title = norm_title a.title := by
  intro arts
  induction arts with
  | nil => intro seen a ha _; cases ha
  | cons b rest ih =>
    intro seen a ha hs
    rw [build_news_list_cons]
    cases hcb : seen.contains (norm_title b.title) with
    | true =>
      rw [if_pos rfl]
      rcases List.mem_cons.mp ha with rfl | ha2
      · rw [hs] at hcb; exact absurd hcb Bool.false_ne_true
      · exact ih seen a ha2 hs
    | false =>
      rw [if_neg Bool.false_ne_true]
      by_cases heq : norm_title a.title = norm_title b.title
      · exact ⟨⟨norm_title b.title, b.link⟩, List.mem_cons_self _ _, heq.symm⟩
      · rcases List.mem_cons.mp ha with rfl | ha2
        · exact absurd rfl heq
        · have hs2 : (norm_title b.title :: seen).contains (norm_title a.title)
              = false := by
            rw [contains_cons_eq, hs, Bool.or_false]
            exact beq_eq_false_iff_ne.mpr heq
          obtain ⟨e, he, het⟩ := ih (norm_title b.title :: seen) a ha2 hs2
          exact ⟨e, List.mem_cons_of_mem _ he, het⟩

theorem build_news_list_links :
    ∀ (arts : List Article) (seen : List String) (e : NewsEntry),
      e ∈ build_news_list arts seen →
      seen.contains e.title = false ∧
      ∃ a, arts.find? (fun b => norm_title b.title == e.title) = some a ∧
        e.link = a.link ∧ e.title = norm_title a.title := by
  intro arts
  induction arts with
  | nil => intro seen e he; cases he
  | cons b rest ih =>
    intro seen e he
    rw [build_news_list_cons] at he
    cases hcb : seen.contains (norm_title b.title) with
    | true =>
      rw [if_pos hcb] at he
      obtain ⟨hc2, a, hfind, hlink, htitle⟩ := ih seen e he
      have hpb : (norm_title b.title == e.title) = false := by
        cases hpb : (norm_title b.title == e.title)
        · rfl
        · exfalso
          rw [beq_iff_eq.mp hpb] at hcb
          rw [hcb] at hc2
          exact Bool.false_ne_true hc2.symm
      refine ⟨hc2, a, ?_, hlink, htitle⟩
      rw [List.find?_cons_of_neg _ (by rw [hpb]; exact Bool.false_ne_true)]
      exact hfind
    | false =>
      rw [if_neg (by rw [hcb]; exact Bool.false_ne_true)] at he
      rcases List.mem_cons.mp he with rfl | he2
      · refine ⟨hcb, b, ?_, rfl, rfl⟩
        exact List.find?_cons_of_pos _ (beq_iff_eq.mpr rfl)
      · obtain ⟨hc2, a, hfind, hlink, htitle⟩ := ih _ e he2
        rw [contains_cons_eq, Bool.or_eq_false_iff] at hc2
        refine ⟨hc2.2, a, ?_, hlink, htitle⟩
        have hpb : (norm_title b.title == e.title) = false := by
          cases hpb : (norm_title b.title == e.title)
          · rfl
          · exfalso
            have h1 := hc2.1
            rw [beq_iff_eq.mp hpb] at h1
            simp at h1
        rw [List.find?_cons_of_neg _ (by rw [hpb]; exact Bool.false_ne_true)]
        exact hfind

/-! ### Claim theorem: news-list deduplication (C6) -/

/-- C6: the news-list output deduplicates by normalized title with
first-seen-wins semantics and stable order.  The emitted titles are exactly
the first-seen deduplication of the normalized input titles (hence pairwise
distinct and in first-occurrence order), every input article's normalized
title is represented, and each output entry carries the link of the first
input article bearing its title — so two articles with identical normalized
titles and different links yield exactly one entry, with the first link. -/
theorem build_news_list_dedup_spec (arts : List Article) :
    ((build_news_list arts []).map (fun e => e.title)).Nodup ∧
    (build_news_list arts []).map (fun e => e.title) =
      firstDedup (arts.map (fun a => norm_title a.title)) ∧
    (∀ a, a ∈ arts →
      ∃ e, e ∈ build_news_list arts [] ∧ e.title = norm_title a.title) ∧
    (∀ e, e ∈ build_news_list arts [] →
      ∃ a, arts.find? (fun b => norm_title b.title == e.title) = some a ∧
        e.link = a.link ∧ e.title = norm_title a.title) := by
  have hfilter : ∀ l : List String,
      l.filter (fun u => !(([] : List String).contains u)) = l := by
    intro l
    induction l with
    | nil => rfl
    | cons t rest ih => simp [List.filter_cons, ih, List.contains_nil]
  have htitles : (build_news_list arts []).map (fun e => e.title) =
      firstDedup (arts.map (fun a => norm_title a.title)) := by
    rw [build_news_list_titles, dedupSeen_eq_firstDedup, hfilter]
  refine ⟨?_, htitles, ?_, ?_⟩
  · rw [htitles]; exact firstDedup_nodup _
  · intro a ha; exact build_news_list_complete arts [] a ha rfl
  · intro e he; exact (build_news_list_links arts [] e he).2

/-- C6 witness: two concrete articles with identical normalized titles and
different links; the theorem yields an output entry for the duplicated
title. -/
theorem build_news_list_dedup_spec_witness :
    ∃ e, e ∈ build_news_list [exArticle1, exArticle2] [] ∧
      e.title = norm_title exArticle1.title :=
  (build_news_list_dedup_spec [exArticle1, exArticle2]).2.2.1 exArticle1 (by decide)

end WordCloudTree
